import Mathlib

/-!
Shallow embedding of the Lyrebird playground sources.

The repository consists of five Python files that wire up static urwid
widget trees: `playground/tree.py` (a standalone mock-up), and the
`playground/lyrebird` package (`widgets.py`, `window.py`,
`panes/libraryTree.py`, `__main__.py`).  The definitions below translate
the data and the few functions those files contain; the
`LibraryTreeModel` namespace holds the forward-looking tree model that
the specification describes but that has no code under the sources yet
(each of its definitions is marked as modelled from the spec).
-/

namespace Lyrebird

/-! Text markup, as urwid accepts it: either a plain string or a list of
(attribute, string) pairs.  `markupText` is the text content that
urwid's `Text.text` / `SelectableIcon.text` accessors return: the
concatenation of the string parts with the attributes stripped. -/

inductive MarkupPart where
  | plain (s : String)
  | attributed (a : String) (s : String)
deriving DecidableEq

abbrev Markup := List MarkupPart

def MarkupPart.text : MarkupPart → String
  | .plain s => s
  | .attributed _ s => s

def markupText : Markup → String
  | [] => ""
  | p :: ps => p.text ++ markupText ps

/-! Commands as urwid's command map produces them: a key is either
mapped to the ACTIVATE command, to some other command, or unmapped
(`none`). -/

inductive Command where
  | activate
  | other (name : String)
deriving DecidableEq

/-! Substring test over strings, the behaviour of urwid's
`is_mouse_press(ev)`, which checks whether "press" occurs in the event
string (events are strings such as "mouse press", "mouse release",
"mouse drag"). -/

def charsHaveSub (needle : List Char) : List Char → Bool
  | [] => needle.isEmpty
  | c :: rest => List.isPrefixOf needle (c :: rest) || charsHaveSub needle rest

def is_mouse_press (event : String) : Bool :=
  charsHaveSub "press".toList event.toList

/-! The `LyrebirdButton` widget of `lyrebird/widgets.py`.  Its state is
the wrapped `SelectableIcon` (whose stored markup `set_label` replaces
and whose text `get_label` reads) together with the callbacks connected
to its `click` signal (the constructor connects `on_press` when one is
passed; the default is none).  Keypress/mouse handlers return the
pending key / handled flag together with the list of signals emitted. -/

structure SelectableIcon where
  markup : Markup
deriving DecidableEq

structure LyrebirdButton where
  labelIcon : SelectableIcon
  connected : List String
deriving DecidableEq

def LyrebirdButton.set_label (b : LyrebirdButton) (label : Markup) : LyrebirdButton :=
  { b with labelIcon := { markup := label } }

def LyrebirdButton.get_label (b : LyrebirdButton) : String :=
  markupText b.labelIcon.markup

def LyrebirdButton.label (b : LyrebirdButton) : String :=
  b.get_label

def LyrebirdButton.new (label : Markup) (on_press : Option String) : LyrebirdButton :=
  LyrebirdButton.set_label
    { labelIcon := { markup := [.plain ""] }, connected := on_press.toList }
    label

def LyrebirdButton.keypress (commandMap : String → Option Command)
    (b : LyrebirdButton) (size : Nat × Nat) (key : String) :
    Option String × List String :=
  if commandMap key ≠ some Command.activate then (some key, [])
  else (none, ["click"])

def LyrebirdButton.mouse_event (b : LyrebirdButton) (size : Nat × Nat)
    (event : String) (button : Nat) (x y : Nat) (focus : Bool) :
    Bool × List String :=
  if button ≠ 1 || !(is_mouse_press event) then (false, [])
  else (true, ["click"])

/-- Callbacks invoked when the click signal of a button fires: exactly
the connected ones. -/
def LyrebirdButton.emitClick (b : LyrebirdButton) : List String :=
  b.connected

/-! A pane holding a scrollable list with an optional header line:
urwid's `Frame(ListBox(walker), header = headerWidget)`; the rows are
the text contents of the walker entries, the header is the text of the
header widget when one is present. -/

structure ListPane where
  headerText : Option String
  rows : List String
deriving DecidableEq

/-! First tree icon occurring in a row: the marker that visually ties a
row into the tree (`├` mid-list, `└` last-sibling). -/

def rowIcon (s : String) : Option Char :=
  s.toList.find? (fun c => c = '├' || c = '└')

end Lyrebird

namespace Lyrebird.Tree

/-! Embedding of `playground/tree.py`: literal data tuples and the
widget rows built from them. -/

def files : List (String × String) :=
  [("clcollab - Ice cleam (WIP)", "4m39s"),
   ("Feel Good Inc (Chiptune Cover)", "3m36s"),
   ("When I\x27m With You 2015", "3m58s")]

def directories : List String :=
  ["Anthrax",
   "Asira",
   "Atrocity",
   "AViVA",
   "Burn In Silence",
   "Chip",
   "Cradle of Filth",
   "Data_Airlines-The_Kife_(DATA013)",
   "Disturbed Discography",
   "Dream Evil",
   "EVE",
   "Five Finger Death Punch",
   "Gorillaz",
   "Hazel",
   "Rammstein"]

/-- Texts of the rows the `dirWalker` list walker holds: one
`Text(f'├ {directory}')` per directory. -/
def dirWalkerTexts : List String :=
  directories.map (fun d => "├ " ++ d)

/-- Text of the `dirPath` header widget. -/
def dirPath : String := "/pool/shiro/Music"

/-- The `dirPane` frame: the directory rows with the path as header. -/
def dirPane : ListPane :=
  { headerText := some dirPath, rows := dirWalkerTexts }

/-- Rows of the `fileWalker`: one two-column `(title, length)` row per
entry of `files`. -/
def fileWalkerRows : List (String × String) :=
  files.map (fun tl => (tl.1, tl.2))

end Lyrebird.Tree

namespace Lyrebird.LibraryTree

/-! Embedding of `playground/lyrebird/panes/libraryTree.py`. -/

def treeNodeIcon : String := "└"

def treeLeafIcon : String := "├"

/-- Markup of the two rows the `_dirWalker` list walker holds. -/
def dirWalkerRows : List Markup :=
  [[.attributed "activeEntry" ("   " ++ treeLeafIcon ++ " Chip")],
   [.plain ("   " ++ treeLeafIcon ++ " Data_Airlines-The_Kife_(DATA013)")]]

/-- Texts of the `_dirWalker` rows. -/
def dirWalkerTexts : List String :=
  dirWalkerRows.map markupText

/-- Text of the `_dirPath` header widget. -/
def dirPath : String := " " ++ treeNodeIcon ++ " /pool/shiro/Music"

/-- The `_dirPane` frame: the directory rows with the decorated path as
header. -/
def dirPane : ListPane :=
  { headerText := some dirPath, rows := dirWalkerTexts }

/-- Contents of the `_fileWalker`: constructed empty. -/
def fileWalkerRows : List Markup := []

end Lyrebird.LibraryTree

namespace Lyrebird.Window

/-! Embedding of `playground/lyrebird/window.py`: the five
`LyrebirdButton`s the `MainWindow` header row constructs, each built
from its label markup alone (no `on_press` callback passed, so the
constructor default `none` applies). -/

def headerButtons : List LyrebirdButton :=
  [LyrebirdButton.new [.attributed "headerNumber" "1", .attributed "headerEntry" " Tree"] none,
   LyrebirdButton.new [.attributed "headerNumber" "2", .attributed "headerEntry" " Artists"] none,
   LyrebirdButton.new [.attributed "headerNumber" "3", .attributed "headerEntry" " Albums"] none,
   LyrebirdButton.new [.attributed "headerNumber" "4", .attributed "headerEntry" " Options"] none,
   LyrebirdButton.new [.attributed "headerNumber" "5", .attributed "headerEntry" " Playlist"] none]

end Lyrebird.Window

namespace Lyrebird.MainModule

/-! Embedding of `playground/lyrebird/__main__.py`. -/

/-- The exception `quitHandler` raises to stop the event loop. -/
inductive ExitMainLoop where
  | mk
deriving DecidableEq

/-- The unhandled-input hook: raises `ExitMainLoop` when the key is in
`('q', 'Q')`, otherwise falls through returning `None`. -/
def quitHandler (key : String) : Except ExitMainLoop Unit :=
  if key = "q" || key = "Q" then Except.error ExitMainLoop.mk
  else Except.ok ()

end Lyrebird.MainModule

namespace Lyrebird.Modules

/-! Module-level traces of the two entry files, one record per
top-level statement that binds or constructs something, in source
order.  `window` marks a main-window construction, `eventLoop` a
`MainLoop` construction. -/

inductive Constructed where
  | dataLiteral
  | widget
  | window
  | eventLoop
  | handlerDef
  | paletteDef
deriving DecidableEq

structure TopLevelStmt where
  name : Option String
  constructed : Constructed
deriving DecidableEq

/-- Top-level statements of `playground/tree.py`, in order. -/
def treeModule : List TopLevelStmt :=
  [{ name := some "files", constructed := .dataLiteral },
   { name := some "directories", constructed := .dataLiteral },
   { name := some "dirWalker", constructed := .widget },
   { name := some "dirPath", constructed := .widget },
   { name := some "dirPane", constructed := .widget },
   { name := some "fileWalker", constructed := .widget },
   { name := some "body", constructed := .widget },
   { name := some "header", constructed := .widget },
   { name := some "footer", constructed := .widget },
   { name := some "mainWindow", constructed := .window },
   { name := some "loop", constructed := .eventLoop }]

/-- Top-level statements of `playground/lyrebird/__main__.py`, in
order; the final `MainLoop(...)` is constructed and run without being
bound to a name. -/
def mainModule : List TopLevelStmt :=
  [{ name := some "quitHandler", constructed := .handlerDef },
   { name := some "lyrebirdPalette", constructed := .paletteDef },
   { name := some "mainWindow", constructed := .window },
   { name := none, constructed := .eventLoop }]

/-- Number of main-window constructions in a module trace. -/
def windowCount (m : List TopLevelStmt) : Nat :=
  (m.filter (fun s => s.constructed = Constructed.window)).length

/-- Number of event-loop constructions in a module trace. -/
def loopCount (m : List TopLevelStmt) : Nat :=
  (m.filter (fun s => s.constructed = Constructed.eventLoop)).length

end Lyrebird.Modules

namespace Lyrebird.LibraryTreeModel

/-- Modelled from the spec: the repository has no `LibraryTreeModel`
code (the spec describes it as the model `LibraryTree` would need once
it stops hardcoding its rows), so the node type is taken from the
spec's data model: a node is a `Track` or a `Directory`; a directory
carries its `expanded` flag, its `childrenLoaded` flag and its ordered
children.  Ids stand for the stable node identifiers. -/
inductive LNode where
  | track (id : Nat)
  | dir (id : Nat) (expanded : Bool) (loaded : Bool) (children : List LNode)

mutual
/-- Modelled from the spec: `flatten()` is the depth-first walk that
emits a `FlatRow` (node id, depth) for every node reached and only
descends into `expanded` directories; this is the walk from one node at
a given depth. -/
def flattenFrom (depth : Nat) : LNode → List (Nat × Nat)
  | .track i => [(i, depth)]
  | .dir i e _ cs => (i, depth) :: (if e then flattenChildren (depth + 1) cs else [])
/-- Modelled from the spec: the depth-first walk of `flatten()` over a
child list. -/
def flattenChildren (depth : Nat) : List LNode → List (Nat × Nat)
  | [] => []
  | c :: cs => flattenFrom depth c ++ flattenChildren depth cs
end

/-- Modelled from the spec: the rendered projection of the whole tree,
walked from the root at depth 0. -/
def flatten (t : LNode) : List (Nat × Nat) := flattenFrom 0 t

mutual
/-- Modelled from the spec: every node id occurring in the tree, in
depth-first order (the spec requires these to be unique within the
tree). -/
def allIds : LNode → List Nat
  | .track i => [i]
  | .dir i _ _ cs => i :: allIdsChildren cs
/-- Modelled from the spec: the ids occurring in a child list. -/
def allIdsChildren : List LNode → List Nat
  | [] => []
  | c :: cs => allIds c ++ allIdsChildren cs
end

mutual
/-- Modelled from the spec: the ids of the nodes whose ancestor chain
contains a non-expanded directory — every strict descendant of a
collapsed directory, plus, below expanded directories, whatever is
blocked further down. -/
def blockedIds : LNode → List Nat
  | .track _ => []
  | .dir _ e _ cs => if e then blockedIdsChildren cs else allIdsChildren cs
/-- Modelled from the spec: the blocked ids below the members of a
child list. -/
def blockedIdsChildren : List LNode → List Nat
  | [] => []
  | c :: cs => blockedIds c ++ blockedIdsChildren cs
end

/-! Modelled from the spec: `toggleExpand(nodeId)` flips `expanded` on
the directory with the given id (a no-op on tracks, the spec's
`NotExpandable` condition); when the flip newly expands a directory
whose children are not yet loaded, `ensureLoaded` fills the children
from the external directory-listing collaborator and marks them
loaded.  The collaborator is abstracted as `listing`, giving the
already classified and ordered child nodes for a directory id. -/
mutual
/-- Modelled from the spec: `toggleExpand(nodeId)` on one node, see the
comment above. -/
def toggleExpand (listing : Nat → List LNode) (target : Nat) : LNode → LNode
  | .track i => .track i
  | .dir i e l cs =>
    if i = target then
      if e then .dir i false l cs
      else if l then .dir i true l cs
      else .dir i true true (listing i)
    else .dir i e l (toggleExpandChildren listing target cs)
/-- Modelled from the spec: `toggleExpand(nodeId)` pushed through a
child list. -/
def toggleExpandChildren (listing : Nat → List LNode) (target : Nat) : List LNode → List LNode
  | [] => []
  | c :: cs => toggleExpand listing target c :: toggleExpandChildren listing target cs
end

mutual
/-- Modelled from the spec: the precondition of the expand/collapse
pair — every node carrying the target id is a currently collapsed
directory (with unique ids this is just "the target is a collapsed
directory"). -/
def collapsedAt (target : Nat) : LNode → Bool
  | .track _ => true
  | .dir i e _ cs => (if i = target then !e else true) && collapsedAtChildren target cs
/-- Modelled from the spec: the collapsed-at-target condition over a
child list. -/
def collapsedAtChildren (target : Nat) : List LNode → Bool
  | [] => true
  | c :: cs => collapsedAt target c && collapsedAtChildren target cs
end

/-- Concrete listing collaborator used by the witnesses. -/
def witnessListing : Nat → List LNode := fun _ => [LNode.track 7]

/-- Concrete tree used by the C7 witness: an expanded, unloaded root
with a collapsed unloaded directory and a track below it. -/
def witnessTreeA : LNode :=
  .dir 0 true false [.dir 1 false false [], .track 2]

/-- Concrete tree used by the C6 witness: an expanded, loaded root over
a collapsed directory (hiding a track) and a visible track. -/
def witnessTreeB : LNode :=
  .dir 0 true true [.dir 1 false true [.track 2], .track 3]

end Lyrebird.LibraryTreeModel

namespace Lyrebird

/-- The sibling row lists of the source's tree panes: the directory
walker of `tree.py` and the directory walker of `LibraryTree`. -/
def treePaneSiblingRowLists : List (List String) :=
  [Tree.dirWalkerTexts, LibraryTree.dirWalkerTexts]

/-- The scrollable row lists of the two directory panes the source
builds. -/
def dirPaneRowLists : List (List String) :=
  [Tree.dirPane.rows, LibraryTree.dirPane.rows]

end Lyrebird

namespace Lyrebird.LibraryTreeModel

/-! Structural induction for the nested tree type, and the membership
lemmas for the child-list folds. -/

theorem LNode.myInduction (P : LNode → Prop)
    (htrack : ∀ i, P (.track i))
    (hdir : ∀ i e l cs, (∀ c ∈ cs, P c) → P (.dir i e l cs)) :
    ∀ t, P t
  | .track i => htrack i
  | .dir i e l cs => hdir i e l cs (fun c _ => LNode.myInduction P htrack hdir c)

theorem mem_flattenChildren {p : Nat × Nat} {d : Nat} :
    ∀ {cs : List LNode}, p ∈ flattenChildren d cs ↔ ∃ c ∈ cs, p ∈ flattenFrom d c := by
  intro cs
  induction cs with
  | nil => simp [flattenChildren]
  | cons c rest ih => simp [flattenChildren, ih]

theorem mem_allIdsChildren {i : Nat} :
    ∀ {cs : List LNode}, i ∈ allIdsChildren cs ↔ ∃ c ∈ cs, i ∈ allIds c := by
  intro cs
  induction cs with
  | nil => simp [allIdsChildren]
  | cons c rest ih => simp [allIdsChildren, ih]

theorem mem_blockedIdsChildren {i : Nat} :
    ∀ {cs : List LNode}, i ∈ blockedIdsChildren cs ↔ ∃ c ∈ cs, i ∈ blockedIds c := by
  intro cs
  induction cs with
  | nil => simp [blockedIdsChildren]
  | cons c rest ih => simp [blockedIdsChildren, ih]

theorem flattenFrom_fst_mem_allIds :
    ∀ t : LNode, ∀ d : Nat, ∀ p ∈ flattenFrom d t, p.1 ∈ allIds t := by
  intro t
  induction t using LNode.myInduction with
  | htrack i => intro d p hp; simp [flattenFrom] at hp; simp [allIds, hp]
  | hdir i e l cs ih =>
    intro d p hp
    simp only [flattenFrom, List.mem_cons] at hp
    rcases hp with h | h
    · simp [allIds, h]
    · cases e with
      | false => simp at h
      | true =>
        simp only [if_true, reduceIte] at h
        rw [mem_flattenChildren] at h
        obtain ⟨c, hc, hpc⟩ := h
        have := ih c hc _ p hpc
        simp [allIds, mem_allIdsChildren]
        exact Or.inr ⟨c, hc, this⟩

theorem blockedIds_sub_allIds :
    ∀ t : LNode, ∀ i ∈ blockedIds t, i ∈ allIds t := by
  intro t
  induction t using LNode.myInduction with
  | htrack i => intro j hj; simp [blockedIds] at hj
  | hdir i e l cs ih =>
    intro j hj
    simp only [blockedIds] at hj
    simp only [allIds, List.mem_cons]
    cases e with
    | false =>
      simp at hj
      exact Or.inr hj
    | true =>
      simp at hj
      rw [mem_blockedIdsChildren] at hj
      obtain ⟨c, hc, hjc⟩ := hj
      exact Or.inr (mem_allIdsChildren.mpr ⟨c, hc, ih c hc j hjc⟩)

theorem nodup_allIds_of_mem {cs : List LNode} (h : (allIdsChildren cs).Nodup) :
    ∀ c ∈ cs, (allIds c).Nodup := by
  induction cs with
  | nil => simp
  | cons c rest ih =>
    simp only [allIdsChildren, List.nodup_append] at h
    intro c' hc'
    rcases List.mem_cons.mp hc' with hc'' | hc''
    · subst hc''; exact h.1
    · exact ih h.2.1 c' hc''

theorem flattenChildren_fst_not_blocked {cs : List LNode}
    (hall : ∀ c ∈ cs, (allIds c).Nodup → ∀ d : Nat, ∀ p ∈ flattenFrom d c, p.1 ∉ blockedIds c)
    (h : (allIdsChildren cs).Nodup) :
    ∀ d : Nat, ∀ p ∈ flattenChildren d cs, p.1 ∉ blockedIdsChildren cs := by
  induction cs with
  | nil => simp [flattenChildren]
  | cons c rest ih =>
    simp only [allIdsChildren, List.nodup_append] at h
    obtain ⟨hc, hrest, hdisj⟩ := h
    intro d p hp hblocked
    simp only [flattenChildren, List.mem_append] at hp
    simp only [blockedIdsChildren, List.mem_append] at hblocked
    rcases hp with hp | hp
    · rcases hblocked with hb | hb
      · exact hall c (by simp) hc d p hp hb
      · have h1 : p.1 ∈ allIds c := flattenFrom_fst_mem_allIds c d p hp
        obtain ⟨c', hc', hb'⟩ := mem_blockedIdsChildren.mp hb
        have h2 : p.1 ∈ allIdsChildren rest :=
          mem_allIdsChildren.mpr ⟨c', hc', blockedIds_sub_allIds c' _ hb'⟩
        exact hdisj h1 h2
    · rcases hblocked with hb | hb
      · obtain ⟨c', hc', hp'⟩ := mem_flattenChildren.mp hp
        have h2 : p.1 ∈ allIdsChildren rest :=
          mem_allIdsChildren.mpr ⟨c', hc', flattenFrom_fst_mem_allIds c' d p hp'⟩
        exact hdisj (blockedIds_sub_allIds c _ hb) h2
      · exact ih (fun c' hc' => hall c' (by simp [hc'])) hrest d p hp hb

theorem flattenFrom_fst_not_blocked :
    ∀ t : LNode, (allIds t).Nodup → ∀ d : Nat, ∀ p ∈ flattenFrom d t, p.1 ∉ blockedIds t := by
  intro t
  induction t using LNode.myInduction with
  | htrack i => intro _ d p _ hb; simp [blockedIds] at hb
  | hdir i e l cs ih =>
    intro hnd d p hp hb
    simp only [allIds, List.nodup_cons] at hnd
    obtain ⟨hi, hnd⟩ := hnd
    simp only [flattenFrom, List.mem_cons] at hp
    simp only [blockedIds] at hb
    cases e with
    | false =>
      simp at hp hb
      rw [hp] at hb
      exact hi hb
    | true =>
      simp at hp hb
      rcases hp with hp | hp
      · rw [hp] at hb
        obtain ⟨c, hc, hb'⟩ := mem_blockedIdsChildren.mp hb
        exact hi (mem_allIdsChildren.mpr ⟨c, hc, blockedIds_sub_allIds c _ hb'⟩)
      · exact flattenChildren_fst_not_blocked ih hnd (d + 1) p hp hb

theorem toggle_toggle_flattenFrom (listing : Nat → List LNode) (target : Nat) :
    ∀ t : LNode, collapsedAt target t = true →
      ∀ d : Nat,
        flattenFrom d (toggleExpand listing target (toggleExpand listing target t)) =
          flattenFrom d t := by
  intro t
  induction t using LNode.myInduction with
  | htrack i => intro _ d; simp [toggleExpand]
  | hdir i e l cs ih =>
    intro hcol d
    simp only [collapsedAt, Bool.and_eq_true] at hcol
    obtain ⟨hself, hkids⟩ := hcol
    by_cases hit : i = target
    · simp only [if_pos hit] at hself
      cases e with
      | true => simp at hself
      | false =>
        cases l with
        | true => simp [toggleExpand, if_pos hit, flattenFrom]
        | false => simp [toggleExpand, if_pos hit, flattenFrom]
    · have listEq :
          ∀ cs' : List LNode,
            (∀ c ∈ cs', collapsedAt target c = true →
              ∀ d' : Nat,
                flattenFrom d' (toggleExpand listing target (toggleExpand listing target c)) =
                  flattenFrom d' c) →
            collapsedAtChildren target cs' = true →
            ∀ d' : Nat,
              flattenChildren d'
                  (toggleExpandChildren listing target (toggleExpandChildren listing target cs')) =
                flattenChildren d' cs' := by
        intro cs'
        induction cs' with
        | nil => intro _ _ d'; simp [toggleExpandChildren, flattenChildren]
        | cons c rest ihrest =>
          intro hmem hcol' d'
          simp only [collapsedAtChildren, Bool.and_eq_true] at hcol'
          simp only [toggleExpandChildren, flattenChildren]
          rw [hmem c (by simp) hcol'.1 d',
            ihrest (fun c' hc' => hmem c' (by simp [hc'])) hcol'.2 d']
      simp only [toggleExpand, if_neg hit, flattenFrom]
      cases e with
      | false => simp
      | true =>
        simp only [if_true, reduceIte]
        rw [listEq cs ih hkids (d + 1)]

end Lyrebird.LibraryTreeModel

namespace Lyrebird

/-! Claim theorems over the embedded sources. -/

/-- C1, counterexample: it is not the case that in every sibling row
list of the source's tree panes the non-last rows carry `├` and the
last row carries `└` — the last row of the `tree.py` directory walker
("├ Rammstein") carries `├`, not `└`. -/
theorem c1_counterexample_last_sibling_not_marked :
    ¬ (∀ rows ∈ treePaneSiblingRowLists,
        (∀ r ∈ rows.dropLast, rowIcon r = some '├') ∧
        (∀ r ∈ rows.getLast?.toList, rowIcon r = some '└')) := by
  decide

/-- C1, amended: in the source's tree panes every directory row —
the last sibling included — is marked with the mid-list icon `├`; the
last-sibling icon `└` never marks a walker row and appears only in the
root-path header of `LibraryTree` (while the `tree.py` header carries
no tree icon at all). -/
theorem c1_amended_every_row_marked_midlist :
    (∀ rows ∈ treePaneSiblingRowLists, ∀ r ∈ rows, rowIcon r = some '├') ∧
    rowIcon LibraryTree.dirPath = some '└' ∧
    rowIcon Tree.dirPath = none := by
  decide

/-- C1 witness: the amended theorem applied to the last row of the
`tree.py` directory walker. -/
theorem c1_amended_witness :
    "├ Rammstein" ∈ Tree.dirWalkerTexts ∧
    Tree.dirWalkerTexts ∈ treePaneSiblingRowLists ∧
    rowIcon "├ Rammstein" = some '├' :=
  ⟨by decide, by decide,
    c1_amended_every_row_marked_midlist.1 Tree.dirWalkerTexts (by decide)
      "├ Rammstein" (by decide)⟩

/-- C2: every button is inert or merely echoes the key-press — for any
key whose command mapping is not ACTIVATE, `keypress` returns the key
unchanged and emits nothing; for an ACTIVATE key it only emits the
click signal; and every one of the five header buttons `MainWindow`
constructs has no `on_press` callback connected, so activating it
invokes no callbacks. -/
theorem c2_buttons_inert_or_echo :
    (∀ (commandMap : String → Option Command) (b : LyrebirdButton)
        (size : Nat × Nat) (key : String),
        commandMap key ≠ some Command.activate →
        b.keypress commandMap size key = (some key, [])) ∧
    (∀ (commandMap : String → Option Command) (b : LyrebirdButton)
        (size : Nat × Nat) (key : String),
        commandMap key = some Command.activate →
        b.keypress commandMap size key = (none, ["click"])) ∧
    Window.headerButtons.length = 5 ∧
    (∀ b ∈ Window.headerButtons, b.connected = [] ∧ b.emitClick = []) := by
  refine ⟨?_, ?_, rfl, ?_⟩
  · intro commandMap b size key h
    simp [LyrebirdButton.keypress, h]
  · intro commandMap b size key h
    simp [LyrebirdButton.keypress, h]
  · decide

/-- C2 witness: the theorem applied to the header's Tree button with an
unmapped key. -/
theorem c2_buttons_witness :
    ((fun _ => (none : Option Command)) "up" ≠ some Command.activate) ∧
    (LyrebirdButton.new
        [.attributed "headerNumber" "1", .attributed "headerEntry" " Tree"]
        none).keypress (fun _ => none) (4, 4) "up" = (some "up", []) ∧
    LyrebirdButton.new
        [.attributed "headerNumber" "1", .attributed "headerEntry" " Tree"] none ∈
      Window.headerButtons ∧
    (LyrebirdButton.new
        [.attributed "headerNumber" "1", .attributed "headerEntry" " Tree"]
        none).connected = [] :=
  ⟨by decide,
    c2_buttons_inert_or_echo.1 (fun _ => none) _ (4, 4) "up" (by decide),
    by decide,
    (c2_buttons_inert_or_echo.2.2.2 _ (by decide)).1⟩

/-- C3: every list walker the source constructs holds a fixed literal
sequence — `LibraryTree`'s file walker is empty, its directory walker
holds exactly the two hardcoded rows, and `tree.py`'s walkers hold
exactly the rows built from its literal `files` and `directories`
tuples.  All four are closed constants of the embedding, independent of
any input or filesystem state. -/
theorem c3_every_walker_is_a_literal_constant :
    LibraryTree.fileWalkerRows = [] ∧
    LibraryTree.dirWalkerTexts =
      ["   ├ Chip", "   ├ Data_Airlines-The_Kife_(DATA013)"] ∧
    Tree.dirWalkerTexts =
      ["├ Anthrax", "├ Asira", "├ Atrocity", "├ AViVA", "├ Burn In Silence",
       "├ Chip", "├ Cradle of Filth", "├ Data_Airlines-The_Kife_(DATA013)",
       "├ Disturbed Discography", "├ Dream Evil", "├ EVE",
       "├ Five Finger Death Punch", "├ Gorillaz", "├ Hazel", "├ Rammstein"] ∧
    Tree.fileWalkerRows =
      [("clcollab - Ice cleam (WIP)", "4m39s"),
       ("Feel Good Inc (Chiptune Cover)", "3m36s"),
       ("When I\x27m With You 2015", "3m58s")] := by
  refine ⟨rfl, by decide, by decide, rfl⟩

/-- C4, counterexample: the claim that some source pane shows the root
path as a row of its scrollable list while some other does not is
false — the root path is a row of neither directory pane. -/
theorem c4_counterexample_root_never_a_row :
    ¬ ((∃ rows ∈ dirPaneRowLists, "/pool/shiro/Music" ∈ rows) ∧
       (∃ rows ∈ dirPaneRowLists, "/pool/shiro/Music" ∉ rows)) := by
  decide

/-- C4, amended: both directory panes place the root path in the frame
header above the scrollable list and never as a list row; the panes
alternate only in the header's decoration — `tree.py` shows the bare
path while `LibraryTree` prefixes the `└` tree icon. -/
theorem c4_amended_root_is_header_never_row :
    Tree.dirPane.headerText = some "/pool/shiro/Music" ∧
    LibraryTree.dirPane.headerText = some (" └ " ++ "/pool/shiro/Music") ∧
    (∀ rows ∈ dirPaneRowLists, "/pool/shiro/Music" ∉ rows) := by
  refine ⟨rfl, by decide, by decide⟩

/-- C4 witness: the amended theorem applied to the `tree.py` pane. -/
theorem c4_amended_witness :
    Tree.dirPane.rows ∈ dirPaneRowLists ∧
    "/pool/shiro/Music" ∉ Tree.dirPane.rows :=
  ⟨by decide, c4_amended_root_is_header_never_row.2.2 Tree.dirPane.rows (by decide)⟩

/-- C5: each entry file that builds a main window constructs exactly
one module-level main window and exactly one event loop — `tree.py`
binds one `mainWindow` and one `loop`; `lyrebird/__main__.py` binds one
`MainWindow` and constructs one `MainLoop`. -/
theorem c5_one_window_one_loop_per_module :
    Modules.windowCount Modules.treeModule = 1 ∧
    Modules.loopCount Modules.treeModule = 1 ∧
    Modules.windowCount Modules.mainModule = 1 ∧
    Modules.loopCount Modules.mainModule = 1 := by
  decide

/-- C8: `quitHandler` raises `ExitMainLoop` exactly when the key is
"q" or "Q", and for every other key it falls through returning `None`
(modelled as `Except.ok ()`), changing no state. -/
theorem c8_quit_handler_raises_iff_q :
    ∀ key : String,
      (MainModule.quitHandler key = Except.error MainModule.ExitMainLoop.mk ↔
        (key = "q" ∨ key = "Q")) ∧
      (MainModule.quitHandler key = Except.ok () ↔ ¬ (key = "q" ∨ key = "Q")) := by
  intro key
  by_cases h1 : key = "q" <;> by_cases h2 : key = "Q" <;>
    simp [MainModule.quitHandler, h1, h2]

/-- C9: `mouse_event` emits the click signal and reports the event as
handled exactly when the button is 1 and the event is a mouse press; in
every other case it reports unhandled and emits nothing. -/
theorem c9_mouse_event_click_iff_left_press :
    ∀ (b : LyrebirdButton) (size : Nat × Nat) (event : String)
      (button x y : Nat) (focus : Bool),
      (b.mouse_event size event button x y focus = (true, ["click"]) ↔
        (button = 1 ∧ is_mouse_press event = true)) ∧
      (b.mouse_event size event button x y focus = (false, []) ↔
        ¬ (button = 1 ∧ is_mouse_press event = true)) := by
  intro b size event button x y focus
  by_cases h1 : button = 1 <;> cases h2 : is_mouse_press event <;>
    simp [LyrebirdButton.mouse_event, h1, h2]

/-- C10: `set_label` followed by `get_label` (and by the `label`
property, which reads the same accessor) is a round trip for
plain-string labels. -/
theorem c10_set_label_get_label_roundtrip :
    ∀ (b : LyrebirdButton) (s : String),
      (b.set_label [MarkupPart.plain s]).get_label = s ∧
      (b.set_label [MarkupPart.plain s]).label = s := by
  intro b s
  constructor <;>
    simp [LyrebirdButton.set_label, LyrebirdButton.get_label, LyrebirdButton.label,
      markupText, MarkupPart.text, String.append_empty]

end Lyrebird

namespace Lyrebird.LibraryTreeModel

/-- C6: for every tree state of the modelled `LibraryTreeModel` (with
the spec's unique-id invariant) `flatten()` never yields a row for a
node whose ancestor chain contains a non-expanded directory. -/
theorem c6_flatten_never_yields_blocked_node (t : LNode)
    (hnd : (allIds t).Nodup) :
    ∀ p ∈ flatten t, p.1 ∉ blockedIds t :=
  fun p hp => flattenFrom_fst_not_blocked t hnd 0 p hp

/-- C6 witness: the theorem applied to a concrete tree with a collapsed
directory hiding a track, at the visible row of id 3. -/
theorem c6_flatten_blocked_witness :
    (allIds witnessTreeB).Nodup ∧
    ((3 : Nat), (1 : Nat)) ∈ flatten witnessTreeB ∧
    ((3 : Nat), (1 : Nat)).1 ∉ blockedIds witnessTreeB :=
  ⟨by decide, by decide,
    c6_flatten_never_yields_blocked_node witnessTreeB (by decide) (3, 1) (by decide)⟩

/-- C7: expanding a collapsed directory with `toggleExpand` and then
collapsing it with a second `toggleExpand` returns `flatten()` to
exactly its pre-expand sequence: the same node ids in the same
order. -/
theorem c7_toggle_pair_restores_flatten (listing : Nat → List LNode)
    (target : Nat) (t : LNode) (hcol : collapsedAt target t = true) :
    (flatten (toggleExpand listing target (toggleExpand listing target t))).map
        Prod.fst =
      (flatten t).map Prod.fst := by
  unfold flatten
  rw [toggle_toggle_flattenFrom listing target t hcol 0]

/-- C7 witness: the theorem applied to a concrete tree whose directory
1 is collapsed and unloaded, with a listing collaborator that would
insert a track on expansion. -/
theorem c7_toggle_pair_witness :
    collapsedAt 1 witnessTreeA = true ∧
    (flatten (toggleExpand witnessListing 1
        (toggleExpand witnessListing 1 witnessTreeA))).map Prod.fst =
      (flatten witnessTreeA).map Prod.fst :=
  ⟨rfl, c7_toggle_pair_restores_flatten witnessListing 1 witnessTreeA rfl⟩

end Lyrebird.LibraryTreeModel
